import Mathlib

/-!
Verification of the training core of the `clever-better` ml-service.

The definitions below are a shallow embedding of the Python sources:
- `app/models/rl_agent.py` (BettingEnvironment, PolicyNetwork, DQNAgent),
- `app/training.py` (TrainingPipeline, create_train_test_split),
- `app/evaluation.py` (ModelEvaluator.compare_models),
- `app/api/training_routes.py` (run_training_job).

Python floats are embedded as rationals (`ℚ`); the transcendental helpers
`np.log` and the square root inside `np.std` are abstracted as explicit
function parameters (`logQ`, `sqrtQ`), which is sound for every property
below (none depends on their values). The neural-network parameter space
and the gradient update of `optimizer.step()` are abstracted as a type `P`
and an arbitrary update function `upd : P → List T → P`; the theorems hold
for every such update, which subsumes the concrete Adam step.
-/

set_option maxHeartbeats 1000000

namespace CleverBetter

/-! ## Replay buffer (rl_agent.py line 189: `deque(maxlen=buffer_size)`) -/

/-- `deque.append` with `maxlen = cap`: append on the right, silently
evicting from the left once the capacity is exceeded. -/
def appendBounded {α : Type} (cap : Nat) (buf : List α) (t : α) : List α :=
  let b := buf ++ [t]
  b.drop (b.length - cap)

/-! ## DQN agent (rl_agent.py lines 153-272) -/

/-- Constructor arguments of `DQNAgent.__init__` that the training loop reads. -/
structure AgentCfg where
  state_dim : Nat
  action_dim : Nat
  eps_end : ℚ
  eps_decay : ℚ
  buffer_size : Nat
  batch_size : Nat
  target_update_freq : Nat

/-- The mutable state of a `DQNAgent`: the two estimators (abstract
parameter type `P`), the training-step counter, epsilon, and the replay
buffer of transitions (abstract type `T`). -/
structure AgentState (P : Type) (T : Type) where
  policy_net : P
  target_net : P
  steps : Nat
  epsilon : ℚ
  replay_buffer : List T

/-- `DQNAgent.__init__` (lines 169-189): `steps = 0`, empty buffer, and the
initial wholesale copy `target_net.load_state_dict(policy_net.state_dict())`. -/
def initAgent {P T : Type} (p0 : P) (eps_start : ℚ) : AgentState P T :=
  { policy_net := p0, target_net := p0, steps := 0, epsilon := eps_start,
    replay_buffer := [] }

/-- `DQNAgent.store_transition` (lines 201-210): append to the bounded deque. -/
def store_transition {P T : Type} (cfg : AgentCfg) (s : AgentState P T) (t : T) :
    AgentState P T :=
  { s with replay_buffer := appendBounded cfg.buffer_size s.replay_buffer t }

/-- `DQNAgent.train_step` (lines 212-251). Early return (no state change)
while the buffer holds fewer than `batch_size` transitions; otherwise the
policy estimator is updated (abstract `upd`, applied to the sampled batch),
the step counter is incremented, the target estimator is overwritten with
the fresh policy parameters exactly when the counter hits a multiple of
`target_update_freq`, and epsilon decays with floor `eps_end`. -/
def train_step {P T : Type} (cfg : AgentCfg) (upd : P → List T → P)
    (batch : List T) (s : AgentState P T) : AgentState P T :=
  if s.replay_buffer.length < cfg.batch_size then s
  else
    let policy := upd s.policy_net batch
    let steps := s.steps + 1
    { policy_net := policy
      target_net := if steps % cfg.target_update_freq = 0 then policy else s.target_net
      steps := steps
      epsilon := max cfg.eps_end (s.epsilon * cfg.eps_decay)
      replay_buffer := s.replay_buffer }

/-- One operation of the agent's training loop. `train` carries the batch
that `random.sample` drew (any sublist; the theorems hold for all). -/
inductive AgentOp (T : Type) where
  | store (t : T)
  | train (batch : List T)

/-- Apply one operation to the agent state. -/
def applyOp {P T : Type} (cfg : AgentCfg) (upd : P → List T → P)
    (s : AgentState P T) : AgentOp T → AgentState P T
  | .store t => store_transition cfg s t
  | .train batch => train_step cfg upd batch s

/-- Run a sequence of operations. -/
def runOps {P T : Type} (cfg : AgentCfg) (upd : P → List T → P)
    (s : AgentState P T) (ops : List (AgentOp T)) : AgentState P T :=
  ops.foldl (applyOp cfg upd) s

/-! ## Betting environment (rl_agent.py lines 29-131) -/

/-- One backtest record, with the fields `BettingEnvironment` reads
(via `result.get(...)` / `full_results`). -/
structure BacktestRecord where
  total_return : ℚ
  sharpe_ratio : ℚ
  profit_factor : ℚ
  win_rate : ℚ
  avg_odds : ℚ
  avg_volume : ℚ
  var_95 : ℚ
deriving Inhabited, DecidableEq

/-- The mutable attributes of `BettingEnvironment`. -/
structure BettingEnvironment where
  backtest_results : List BacktestRecord
  current_index : Nat
  current_capital : ℚ
  initial_capital : ℚ
  equity_history : List ℚ
  action_history : List Nat
deriving DecidableEq

/-- `BettingEnvironment.__init__` (lines 32-38). -/
def mkEnv (backtest_results : List BacktestRecord) : BettingEnvironment :=
  { backtest_results := backtest_results, current_index := 0,
    current_capital := 10000, initial_capital := 10000,
    equity_history := [10000], action_history := [] }

/-- The state mutation of `BettingEnvironment.reset` (lines 40-46). -/
def resetEnv (e : BettingEnvironment) : BettingEnvironment :=
  { backtest_results := e.backtest_results, current_index := 0,
    current_capital := e.initial_capital, initial_capital := e.initial_capital,
    equity_history := [e.initial_capital], action_history := [] }

/-- Python `max` over a nonempty list (0 on the empty list, which the code
never reaches since the equity history always holds the initial capital). -/
def pyMax : List ℚ → ℚ
  | [] => 0
  | x :: xs => xs.foldl max x

/-- Python slice `l[-n:]`. -/
def takeLast {α : Type} (n : Nat) (l : List α) : List α := l.drop (l.length - n)

/-- `np.mean` over rationals. -/
def qMean (l : List ℚ) : ℚ := l.sum / l.length

/-- `np.diff(l) / l[:-1]` elementwise. -/
def diffRatio (l : List ℚ) : List ℚ := (l.zip l.tail).map fun p => (p.2 - p.1) / p.1

/-- `np.std` (population), with the square root abstracted as `sqrtQ`. -/
def qStd (sqrtQ : ℚ → ℚ) (l : List ℚ) : ℚ :=
  sqrtQ (qMean (l.map fun x => (x - qMean l) ^ 2))

/-- `BettingEnvironment._get_state` (lines 48-83): the all-zero 9-vector
once the record sequence is exhausted, else the 9 features of the spec. -/
def get_state (sqrtQ : ℚ → ℚ) (e : BettingEnvironment) : List ℚ :=
  if e.backtest_results.length ≤ e.current_index then List.replicate 9 0
  else
    let result := e.backtest_results.getD e.current_index default
    let recent_equity := takeLast 10 e.equity_history
    let recent_returns := if 1 < recent_equity.length then diffRatio recent_equity else [0]
    let recent_sharpe : ℚ :=
      if 1 < recent_returns.length then
        qMean recent_returns / (qStd sqrtQ recent_returns + 1 / 1000000)
      else 0
    let peak := pyMax recent_equity
    let recent_drawdown := if 0 < peak then (peak - e.current_capital) / peak else 0
    [e.current_capital / e.initial_capital,
     if 0 < recent_returns.length then qMean recent_returns else 0,
     recent_sharpe, recent_drawdown,
     result.avg_odds, result.avg_volume, result.win_rate, result.profit_factor,
     result.var_95]

/-- The `info` dict returned by a non-terminal `step`. -/
structure StepInfo where
  capital : ℚ
  position_size : ℚ
  pnl : ℚ
  sharpe : ℚ
deriving DecidableEq

/-- `BettingEnvironment.step` (lines 85-131). Returned first component is
the post-step environment (the Python method mutates `self`); the rest is
the `(state, reward, done, info)` tuple, with the empty info dict of the
exhausted branch embedded as `none`. `logQ` abstracts `np.log`. -/
def step (logQ sqrtQ : ℚ → ℚ) (e : BettingEnvironment) (action : Nat) :
    BettingEnvironment × List ℚ × ℚ × Bool × Option StepInfo :=
  if e.backtest_results.length ≤ e.current_index then
    (e, get_state sqrtQ e, 0, true, none)
  else
    let result := e.backtest_results.getD e.current_index default
    let bet_fraction : ℚ := (action : ℚ) / 10
    let kelly_fraction := max 0 (min (result.profit_factor - 1) (1 / 4))
    let position_size := e.current_capital * kelly_fraction * bet_fraction
    let pnl := position_size * result.total_return
    let new_capital := e.current_capital + pnl
    let reward0 := result.sharpe_ratio * logQ (result.profit_factor + 1 / 1000000)
    let reward1 := if new_capital < e.initial_capital * (7 / 10) then reward0 - 10 else reward0
    let reward2 := if pyMax e.equity_history < new_capital then reward1 + 1 else reward1
    let new_index := e.current_index + 1
    let e' : BettingEnvironment :=
      { e with
        current_capital := new_capital
        equity_history := e.equity_history ++ [new_capital]
        action_history := e.action_history ++ [action]
        current_index := new_index }
    (e', get_state sqrtQ e', reward2,
     decide (e.backtest_results.length ≤ new_index),
     some { capital := new_capital, position_size := position_size, pnl := pnl,
            sharpe := result.sharpe_ratio })

/-- `reset()` as the Python method: mutate, then return the initial state. -/
def reset (sqrtQ : ℚ → ℚ) (e : BettingEnvironment) :
    BettingEnvironment × List ℚ :=
  (resetEnv e, get_state sqrtQ (resetEnv e))

/-- Run `step` over a whole action sequence, collecting every output. -/
def runEnv (logQ sqrtQ : ℚ → ℚ) (e : BettingEnvironment) :
    List Nat → List (List ℚ × ℚ × Bool × Option StepInfo) × BettingEnvironment
  | [] => ([], e)
  | a :: as =>
    let r := step logQ sqrtQ e a
    let rest := runEnv logQ sqrtQ r.1 as
    (r.2 :: rest.1, rest.2)

/-- The reward exactly as §4.1 of the spec words it: risk-adjusted metric of
the record times `log(profit_factor + ε)`, minus a fixed penalty when the
resulting capital falls below 70% of the initial capital, plus a fixed bonus
when it reaches a new running maximum of the equity history. -/
def spec_reward (logQ : ℚ → ℚ) (e : BettingEnvironment) (action : Nat) : ℚ :=
  let r := e.backtest_results.getD e.current_index default
  let resulting_capital := e.current_capital +
    e.current_capital * max 0 (min (r.profit_factor - 1) (1 / 4)) * ((action : ℚ) / 10)
      * r.total_return
  r.sharpe_ratio * logQ (r.profit_factor + 1 / 1000000)
    - (if resulting_capital < e.initial_capital * (7 / 10) then 10 else 0)
    + (if pyMax e.equity_history < resulting_capital then 1 else 0)

/-! ## Policy network and action selection (rl_agent.py lines 134-199) -/

/-- A `torch.nn.Linear` layer: `in_features` is the declared input width
that `forward` matrix-multiplies against. -/
structure LinearParams where
  in_features : Nat
  weight : List (List ℚ)
  bias : List ℚ
deriving DecidableEq

/-- Dot product over rationals. -/
def dotQ (a b : List ℚ) : ℚ := ((a.zip b).map fun p => p.1 * p.2).sum

/-- `Linear.forward`: torch raises a shape-mismatch `RuntimeError` when the
input width differs from `in_features`; otherwise `W x + b`. -/
def linearForward (l : LinearParams) (x : List ℚ) : Except String (List ℚ) :=
  if x.length = l.in_features then
    Except.ok ((l.weight.zip l.bias).map fun p => dotQ p.1 x + p.2)
  else Except.error ("mat1 and mat2 shapes cannot be multiplied")

/-- `nn.ReLU`. -/
def reluV (x : List ℚ) : List ℚ := x.map fun v => max v 0

/-- `PolicyNetwork` (lines 134-150): Linear(state_dim,256) → ReLU →
Linear(256,128) → ReLU → Linear(128,64) → ReLU → Linear(64,action_dim). -/
structure PolicyNetwork where
  l1 : LinearParams
  l2 : LinearParams
  l3 : LinearParams
  l4 : LinearParams
deriving DecidableEq

/-- `PolicyNetwork.forward`. -/
def policyForward (net : PolicyNetwork) (x : List ℚ) : Except String (List ℚ) := do
  let h1 ← linearForward net.l1 x
  let h2 ← linearForward net.l2 (reluV h1)
  let h3 ← linearForward net.l3 (reluV h2)
  linearForward net.l4 (reluV h3)

/-- `torch.argmax` helper: index of the first maximal entry. -/
def argmaxAux (idx bi : Nat) (bv : ℚ) : List ℚ → Nat
  | [] => bi
  | x :: xs => if bv < x then argmaxAux (idx + 1) idx x xs else argmaxAux (idx + 1) bi bv xs

/-- `q_values.argmax().item()`. -/
def argmaxQ : List ℚ → Nat
  | [] => 0
  | x :: xs => argmaxAux 1 0 x xs

/-- `DQNAgent.select_action` (lines 191-199). `r` is the draw of
`random.random()` (in `[0,1)`) and `randAction` the draw of
`random.randint(0, action_dim - 1)`; the exploration branch returns it
without touching `state`, the greedy branch runs the policy network. -/
def select_action (epsilon : ℚ) (net : PolicyNetwork) (r : ℚ) (randAction : Nat)
    (training : Bool) (state : List ℚ) : Except String Nat :=
  if training = true ∧ r < epsilon then Except.ok randAction
  else do
    let q ← policyForward net state
    Except.ok (argmaxQ q)

/-! ## Temporal split (training.py lines 392-409, temporal branch) -/

/-- `create_train_test_split` with `temporal=True`: cut at
`int(len(X) * (1 - test_size))`, no shuffling. -/
def create_train_test_split {α β : Type} (X : List α) (y : List β) (test_size : ℚ) :
    List α × List α × List β × List β :=
  let split_idx := (⌊(X.length : ℚ) * (1 - test_size)⌋).toNat
  (X.take split_idx, X.drop split_idx, y.take split_idx, y.drop split_idx)

/-! ## Model comparison (evaluation.py lines 80-113) -/

/-- The five metrics `compare_models` reads from each model's metrics map. -/
structure ModelMetrics where
  sharpe_ratio : ℚ
  roi : ℚ
  profit_factor : ℚ
  brier_score : ℚ
  win_rate : ℚ
deriving DecidableEq

/-- The composite score of `compare_models` (lines 88-95). -/
def composite_score (m : ModelMetrics) : ℚ :=
  30 / 100 * m.sharpe_ratio + 20 / 100 * m.roi + 20 / 100 * m.profit_factor
    + 15 / 100 * (1 - m.brier_score) + 15 / 100 * m.win_rate

/-- Stable descending insertion by score: the semantics of Python's stable
`sorted(..., key=score, reverse=True)`. -/
def insertDesc (x : String × ℚ) : List (String × ℚ) → List (String × ℚ)
  | [] => [x]
  | y :: ys => if y.2 < x.2 then x :: y :: ys else y :: insertDesc x ys

/-- Stable descending sort by score. -/
def sortDesc (l : List (String × ℚ)) : List (String × ℚ) :=
  l.foldl (fun acc x => insertDesc x acc) []

/-- The dict returned by `compare_models`. -/
structure ComparisonResult where
  rankings : List (String × ℚ)
  best_model : Option String
  composite_scores : List (String × ℚ)

/-- `ModelEvaluator.compare_models` (lines 80-105): per-model composite
scores, models ranked descending, best model = head of the ranking. -/
def compare_models (models_metrics : List (String × ModelMetrics)) : ComparisonResult :=
  let composite_scores := models_metrics.map fun p => (p.1, composite_score p.2)
  let ranked := sortDesc composite_scores
  { rankings := ranked, best_model := ranked.head?.map Prod.fst,
    composite_scores := composite_scores }

/-! ## Training-job lifecycle (training_routes.py lines 32-102, training.py) -/

/-- The fields of `TrainingPipeline.train_all_models`' successful result
that `run_training_job` copies onto the job record. -/
structure TrainOutcome where
  test_metrics : List (String × ℚ)
  best_params : List (String × ℚ)
  model_version : Nat
  run_id : Nat
deriving DecidableEq

/-- One entry of the `training_jobs` dict. -/
structure JobRecord where
  status : String
  model_type : String
  created_at : Nat
  started_at : Option Nat
  completed_at : Option Nat
  failed_at : Option Nat
  metrics : Option (List (String × ℚ))
  best_params : Option (List (String × ℚ))
  model_version : Option Nat
  mlflow_run_id : Option Nat
  error : Option String
deriving DecidableEq

/-- The record created by the `/models/train` endpoint (lines 90-94):
status `pending`, only `model_type` and `created_at` set. -/
def initialJob (model_type : String) (t : Nat) : JobRecord :=
  { status := "pending", model_type := model_type, created_at := t,
    started_at := none, completed_at := none, failed_at := none,
    metrics := none, best_params := none, model_version := none,
    mlflow_run_id := none, error := none }

/-- `load_backtest_results(session, filters)`: the rows of the store
matching the filters. -/
def load_backtest_results {α : Type} (db : List α) (pred : α → Bool) : List α :=
  db.filter pred

/-- The guard of `TrainingPipeline.load_training_data` (training.py lines
57-61): zero rows raise `ValueError("No backtest results found with given
filters")`, surfaced here as `Except.error`. -/
def load_training_data {α : Type} (results : List α) : Except String (List α) :=
  if results.isEmpty then
    Except.error ("No backtest results found with given filters")
  else Except.ok results

/-- `TrainingPipeline.train_all_models` at the job boundary: load the data,
fit and evaluate, then register the artifact. The registry (the external
artifact store) only grows when every prior step succeeded and registration
itself succeeds; any error aborts the chain with the registry untouched.
`δ` is the prepared data, `μ` a registered artifact. -/
def train_all_models {δ μ : Type} (registry : List μ) (data : Except String δ)
    (fitEval : δ → Except String TrainOutcome)
    (register : TrainOutcome → Except String μ) :
    Except String TrainOutcome × List μ :=
  match data with
  | .error e => (.error e, registry)
  | .ok d =>
    match fitEval d with
    | .error e => (.error e, registry)
    | .ok out =>
      match register out with
      | .error e => (.error e, registry)
      | .ok m => (.ok out, registry ++ [m])

/-- `run_training_job` (training_routes.py lines 32-82): mark the job
running, run the pipeline, and on success copy metrics/params/version onto
the record; any exception is caught at this boundary and turns the record
into status `failed` with the error message and a failure timestamp. -/
def run_training_job {δ μ : Type} (job : JobRecord) (t1 t2 : Nat)
    (registry : List μ) (data : Except String δ)
    (fitEval : δ → Except String TrainOutcome)
    (register : TrainOutcome → Except String μ) : JobRecord × List μ :=
  let job1 := { job with status := "running", started_at := some t1 }
  match train_all_models registry data fitEval register with
  | (.ok out, reg) =>
    ({ job1 with
        status := "completed"
        metrics := some out.test_metrics
        best_params := some out.best_params
        model_version := some out.model_version
        mlflow_run_id := some out.run_id
        completed_at := some t2 }, reg)
  | (.error e, reg) =>
    ({ job1 with status := "failed", error := some e, failed_at := some t2 }, reg)

end CleverBetter

namespace CleverBetter

/-! ## Theorems on the replay buffer and the agent -/

theorem length_appendBounded {α : Type} (cap : Nat) (buf : List α) (t : α) :
    (appendBounded cap buf t).length = min cap (buf.length + 1) := by
  simp [appendBounded]
  omega

theorem appendBounded_length_le {α : Type} (cap : Nat) (buf : List α) (t : α) :
    (appendBounded cap buf t).length ≤ cap := by
  rw [length_appendBounded]; omega

theorem drop_append_drop {α : Type} (cap : Nat) (B ts : List α) :
    ((B.drop (B.length - cap)) ++ ts).drop
        ((B.drop (B.length - cap)).length + ts.length - cap)
      = (B ++ ts).drop (B.length + ts.length - cap) := by
  rw [List.drop_append_eq_append_drop, List.drop_append_eq_append_drop,
    List.drop_drop, List.length_drop]
  have h1 : B.length - cap + (B.length - (B.length - cap) + ts.length - cap)
      = B.length + ts.length - cap := by omega
  have h2 : B.length - (B.length - cap) + ts.length - cap - (B.length - (B.length - cap))
      = B.length + ts.length - cap - B.length := by omega
  rw [h1, h2]

theorem foldl_appendBounded {α : Type} (cap : Nat) (ts acc : List α)
    (h : acc.length ≤ cap) :
    ts.foldl (appendBounded cap) acc = (acc ++ ts).drop ((acc ++ ts).length - cap) := by
  induction ts generalizing acc with
  | nil =>
    simp only [List.foldl_nil, List.append_nil]
    have h0 : acc.length - cap = 0 := by omega
    rw [h0, List.drop_zero]
  | cons t ts ih =>
    rw [List.foldl_cons, ih _ (appendBounded_length_le cap acc t)]
    have hrw : acc ++ t :: ts = (acc ++ [t]) ++ ts := by simp
    rw [hrw]
    show (((acc ++ [t]).drop ((acc ++ [t]).length - cap)) ++ ts).drop
        ((((acc ++ [t]).drop ((acc ++ [t]).length - cap)) ++ ts).length - cap)
      = ((acc ++ [t]) ++ ts).drop (((acc ++ [t]) ++ ts).length - cap)
    have key := drop_append_drop cap (acc ++ [t]) ts
    rw [← List.length_append ((acc ++ [t]).drop ((acc ++ [t]).length - cap)) ts,
      ← List.length_append (acc ++ [t]) ts] at key
    exact key

theorem runOps_invariant {P T : Type} (cfg : AgentCfg) (upd : P → List T → P)
    (I : AgentState P T → Prop)
    (h : ∀ s op, I s → I (applyOp cfg upd s op)) :
    ∀ (ops : List (AgentOp T)) (s : AgentState P T), I s → I (runOps cfg upd s ops) := by
  intro ops
  induction ops with
  | nil => intro s hs; exact hs
  | cons op ops ih => intro s hs; exact ih _ (h s op hs)

theorem runOps_store_buffer {P T : Type} (cfg : AgentCfg) (upd : P → List T → P)
    (ts : List T) (s : AgentState P T) :
    (runOps cfg upd s (ts.map AgentOp.store)).replay_buffer
      = ts.foldl (appendBounded cfg.buffer_size) s.replay_buffer := by
  induction ts generalizing s with
  | nil => rfl
  | cons t ts ih =>
    show (runOps cfg upd (store_transition cfg s t) (ts.map AgentOp.store)).replay_buffer = _
    rw [ih]
    rfl

/-- C2: the replay buffer is a capacity-`C` FIFO. Starting from a fresh
agent, storing `C + k` transitions leaves exactly the last `C` of them, in
insertion order, and the buffer length is exactly `C`; moreover no sequence
of operations ever pushes the buffer length above the configured capacity. -/
theorem replay_buffer_fifo {P T : Type} (cfg : AgentCfg) (upd : P → List T → P)
    (p0 : P) (e0 : ℚ) (ts : List T) (k : Nat)
    (hC : 0 < cfg.buffer_size) (hk : 0 < k)
    (hlen : ts.length = cfg.buffer_size + k) :
    (runOps cfg upd (initAgent p0 e0) (ts.map AgentOp.store)).replay_buffer = ts.drop k
    ∧ (runOps cfg upd (initAgent p0 e0) (ts.map AgentOp.store)).replay_buffer.length
        = cfg.buffer_size
    ∧ ∀ (s : AgentState P T) (ops : List (AgentOp T)),
        s.replay_buffer.length ≤ cfg.buffer_size →
        (runOps cfg upd s ops).replay_buffer.length ≤ cfg.buffer_size := by
  have hbuf : (runOps cfg upd (initAgent p0 e0) (ts.map AgentOp.store)).replay_buffer
      = ts.drop k := by
    rw [runOps_store_buffer]
    show ts.foldl (appendBounded cfg.buffer_size) [] = ts.drop k
    rw [foldl_appendBounded cfg.buffer_size ts [] (by simp)]
    simp only [List.nil_append]
    congr 1
    omega
  refine ⟨hbuf, ?_, ?_⟩
  · rw [hbuf, List.length_drop]
    omega
  · intro s ops hs
    refine runOps_invariant cfg upd
      (fun x => x.replay_buffer.length ≤ cfg.buffer_size) ?_ ops s hs
    intro x op hI
    cases op with
    | store t => exact appendBounded_length_le _ _ _
    | train batch =>
      show (train_step cfg upd batch x).replay_buffer.length ≤ cfg.buffer_size
      unfold train_step
      split
      · exact hI
      · exact hI

theorem replay_buffer_fifo_witness :
    ((0:Nat) < 3 ∧ (0:Nat) < 2 ∧ ([0, 1, 2, 3, 4] : List Nat).length = 3 + 2)
    ∧ (runOps ⟨9, 11, 1/100, 199/200, 3, 64, 100⟩ (fun (p : Unit) (_ : List Nat) => p)
        (initAgent () 1) (([0, 1, 2, 3, 4] : List Nat).map AgentOp.store)).replay_buffer
      = ([0, 1, 2, 3, 4] : List Nat).drop 2 :=
  ⟨⟨by decide, by decide, by decide⟩,
    (replay_buffer_fifo ⟨9, 11, 1/100, 199/200, 3, 64, 100⟩
      (fun (p : Unit) (_ : List Nat) => p) () 1 [0, 1, 2, 3, 4] 2
      (by decide) (by decide) (by decide)).1⟩

/-- C1: target-network synchronization. From a fresh agent (whose
constructor copied the policy parameters into the target), in every
reachable state whose training-step counter is a multiple of
`target_update_freq` the target parameters equal the policy parameters;
`store_transition` never touches the target; a `train_step` that is a no-op
or whose incremented counter misses the multiple leaves the target
untouched; and a `train_step` whose incremented counter hits the multiple
sets the target to the freshly updated policy parameters at that instant. -/
theorem target_sync {P T : Type} (cfg : AgentCfg) (upd : P → List T → P)
    (p0 : P) (e0 : ℚ) :
    (∀ ops : List (AgentOp T),
        (runOps cfg upd (initAgent p0 e0) ops).steps % cfg.target_update_freq = 0 →
        (runOps cfg upd (initAgent p0 e0) ops).target_net
          = (runOps cfg upd (initAgent p0 e0) ops).policy_net)
    ∧ (∀ (s : AgentState P T) (t : T), (store_transition cfg s t).target_net = s.target_net)
    ∧ (∀ (s : AgentState P T) (batch : List T),
        s.replay_buffer.length < cfg.batch_size
          ∨ (s.steps + 1) % cfg.target_update_freq ≠ 0 →
        (train_step cfg upd batch s).target_net = s.target_net)
    ∧ (∀ (s : AgentState P T) (batch : List T),
        cfg.batch_size ≤ s.replay_buffer.length →
        (s.steps + 1) % cfg.target_update_freq = 0 →
        (train_step cfg upd batch s).target_net = (train_step cfg upd batch s).policy_net) := by
  refine ⟨?_, ?_, ?_, ?_⟩
  · intro ops
    refine runOps_invariant cfg upd
      (fun x => x.steps % cfg.target_update_freq = 0 → x.target_net = x.policy_net)
      ?_ ops (initAgent p0 e0) (fun _ => rfl)
    intro x op hI
    cases op with
    | store t => exact hI
    | train batch =>
      show (train_step cfg upd batch x).steps % cfg.target_update_freq = 0 →
        (train_step cfg upd batch x).target_net = (train_step cfg upd batch x).policy_net
      unfold train_step
      split
      · exact hI
      · intro hmod
        simp only at hmod ⊢
        rw [if_pos hmod]
  · intro s t
    rfl
  · intro s batch h
    unfold train_step
    by_cases hb : s.replay_buffer.length < cfg.batch_size
    · rw [if_pos hb]
    · rw [if_neg hb]
      have hmod : (s.steps + 1) % cfg.target_update_freq ≠ 0 := by
        rcases h with h | h
        · exact absurd h hb
        · exact h
      simp only
      rw [if_neg hmod]
  · intro s batch hb hmod
    unfold train_step
    rw [if_neg (by omega)]
    simp only
    rw [if_pos hmod]

theorem target_sync_witness :
    ((runOps ⟨9, 11, 0, 1, 10, 1, 2⟩ (fun (p : Nat) (_ : List Nat) => p + 1)
        (initAgent 0 1) [AgentOp.store 7, AgentOp.train [], AgentOp.train []]).steps % 2 = 0)
    ∧ (runOps ⟨9, 11, 0, 1, 10, 1, 2⟩ (fun (p : Nat) (_ : List Nat) => p + 1)
        (initAgent 0 1) [AgentOp.store 7, AgentOp.train [], AgentOp.train []]).target_net
      = (runOps ⟨9, 11, 0, 1, 10, 1, 2⟩ (fun (p : Nat) (_ : List Nat) => p + 1)
        (initAgent 0 1) [AgentOp.store 7, AgentOp.train [], AgentOp.train []]).policy_net :=
  ⟨by decide,
    (target_sync ⟨9, 11, 0, 1, 10, 1, 2⟩ (fun (p : Nat) (_ : List Nat) => p + 1) 0 1).1
      [AgentOp.store 7, AgentOp.train [], AgentOp.train []] (by decide)⟩

/-- C3 counterexample: a call to `train_step` on an agent whose replay
buffer holds fewer than `batch_size` transitions returns early and leaves
epsilon unchanged (here at 1), whereas the claimed update
`max(epsilon_end, epsilon * epsilon_decay)` would give 199/200 ≠ 1. -/
theorem epsilon_decay_counterexample :
    (train_step ⟨9, 11, 1/100, 199/200, 10000, 64, 100⟩
        (fun (p : Unit) (_ : List Unit) => p) [] (initAgent () 1)).epsilon = 1
    ∧ max (1/100 : ℚ) (1 * (199/200)) ≠ 1 := by
  constructor
  · rfl
  · have h : (1/100 : ℚ) ≤ 1 * (199/200) := by norm_num
    rw [max_eq_right h]
    norm_num

/-- C3 amended: an effective `train_step` (buffer at least one full batch)
updates epsilon to `max(epsilon_end, epsilon * epsilon_decay)`; a
`train_step` call on a smaller buffer is a no-op that leaves epsilon
unchanged; consequently, with a decay factor in [0,1] and epsilon starting
at or above the nonnegative floor, epsilon is non-increasing along every
operation sequence and never drops below the floor. -/
theorem epsilon_decay_amended {P T : Type} (cfg : AgentCfg) (upd : P → List T → P)
    (s : AgentState P T)
    (hd0 : 0 ≤ cfg.eps_decay) (hd1 : cfg.eps_decay ≤ 1)
    (he0 : 0 ≤ cfg.eps_end) (he : cfg.eps_end ≤ s.epsilon) :
    (∀ batch : List T, cfg.batch_size ≤ s.replay_buffer.length →
        (train_step cfg upd batch s).epsilon = max cfg.eps_end (s.epsilon * cfg.eps_decay))
    ∧ (∀ batch : List T, s.replay_buffer.length < cfg.batch_size →
        (train_step cfg upd batch s).epsilon = s.epsilon)
    ∧ ∀ ops : List (AgentOp T),
        (runOps cfg upd s ops).epsilon ≤ s.epsilon
        ∧ cfg.eps_end ≤ (runOps cfg upd s ops).epsilon := by
  refine ⟨?_, ?_, ?_⟩
  · intro batch hb
    unfold train_step
    rw [if_neg (by omega)]
  · intro batch hb
    unfold train_step
    rw [if_pos hb]
  · intro ops
    have key : ∀ (x : AgentState P T) (op : AgentOp T),
        (cfg.eps_end ≤ x.epsilon ∧ x.epsilon ≤ s.epsilon) →
        cfg.eps_end ≤ (applyOp cfg upd x op).epsilon
          ∧ (applyOp cfg upd x op).epsilon ≤ s.epsilon := by
      intro x op hI
      cases op with
      | store t => exact hI
      | train batch =>
        show cfg.eps_end ≤ (train_step cfg upd batch x).epsilon
          ∧ (train_step cfg upd batch x).epsilon ≤ s.epsilon
        unfold train_step
        split
        · exact hI
        · simp only
          constructor
          · exact le_max_left _ _
          · have hx0 : 0 ≤ x.epsilon := le_trans he0 hI.1
            have h1 : x.epsilon * cfg.eps_decay ≤ x.epsilon :=
              mul_le_of_le_one_right hx0 hd1
            have h2 : max cfg.eps_end (x.epsilon * cfg.eps_decay) ≤ x.epsilon :=
              max_le hI.1 h1
            exact le_trans h2 hI.2
    have := runOps_invariant cfg upd
      (fun x => cfg.eps_end ≤ x.epsilon ∧ x.epsilon ≤ s.epsilon) key ops s ⟨he, le_refl _⟩
    exact ⟨this.2, this.1⟩

theorem epsilon_decay_amended_witness :
    (train_step ⟨9, 11, 1/100, 199/200, 10000, 64, 100⟩
        (fun (p : Unit) (_ : List Unit) => p) [] (initAgent () 1)).epsilon
      = (initAgent () 1 : AgentState Unit Unit).epsilon :=
  (epsilon_decay_amended ⟨9, 11, 1/100, 199/200, 10000, 64, 100⟩
      (fun (p : Unit) (_ : List Unit) => p) (initAgent () 1)
      (by norm_num) (by norm_num) (by norm_num) (by norm_num [initAgent])).2.1
    [] (by decide)

/-! ## Theorems on the betting environment -/

theorem step_preserves (logQ sqrtQ : ℚ → ℚ) (e : BettingEnvironment) (a : Nat) :
    (step logQ sqrtQ e a).1.backtest_results = e.backtest_results
    ∧ (step logQ sqrtQ e a).1.initial_capital = e.initial_capital := by
  unfold step
  split
  · exact ⟨rfl, rfl⟩
  · exact ⟨rfl, rfl⟩

theorem runEnv_preserves (logQ sqrtQ : ℚ → ℚ) : ∀ (acts : List Nat) (e : BettingEnvironment),
    (runEnv logQ sqrtQ e acts).2.backtest_results = e.backtest_results
    ∧ (runEnv logQ sqrtQ e acts).2.initial_capital = e.initial_capital := by
  intro acts
  induction acts with
  | nil => intro e; exact ⟨rfl, rfl⟩
  | cons a as ih =>
    intro e
    have h1 := step_preserves logQ sqrtQ e a
    have h2 := ih (step logQ sqrtQ e a).1
    show ((runEnv logQ sqrtQ (step logQ sqrtQ e a).1 as).2.backtest_results = _)
      ∧ ((runEnv logQ sqrtQ (step logQ sqrtQ e a).1 as).2.initial_capital = _)
    exact ⟨h2.1.trans h1.1, h2.2.trans h1.2⟩

/-- C4: the environment is deterministic. Two environments over the same
ordered record list (and the same configured initial capital, which the
constructor fixes at 10000) agree after `reset()` and, fed the same action
sequence, produce identical outputs at every step — states, rewards, done
flags and info maps; moreover a run never changes the record list or the
initial capital, so repeated `reset()+step()*` runs of one environment
reproduce the same trajectory. -/
theorem environment_deterministic (logQ sqrtQ : ℚ → ℚ) (e1 e2 : BettingEnvironment)
    (acts : List Nat)
    (hrec : e1.backtest_results = e2.backtest_results)
    (hcap : e1.initial_capital = e2.initial_capital) :
    reset sqrtQ e1 = reset sqrtQ e2
    ∧ runEnv logQ sqrtQ (resetEnv e1) acts = runEnv logQ sqrtQ (resetEnv e2) acts
    ∧ ∀ acts0 : List Nat,
        (runEnv logQ sqrtQ (resetEnv e1) acts0).2.backtest_results = e1.backtest_results
        ∧ (runEnv logQ sqrtQ (resetEnv e1) acts0).2.initial_capital = e1.initial_capital := by
  have hres : resetEnv e1 = resetEnv e2 := by
    unfold resetEnv
    rw [hrec, hcap]
  refine ⟨?_, ?_, ?_⟩
  · unfold reset
    rw [hres]
  · rw [hres]
  · intro acts0
    have h := runEnv_preserves logQ sqrtQ acts0 (resetEnv e1)
    exact ⟨h.1, h.2⟩

theorem environment_deterministic_witness :
    reset (fun x => x) (mkEnv [⟨1, 2, 3/2, 1/2, 2, 1000, 1/20⟩])
      = reset (fun x => x) (mkEnv [⟨1, 2, 3/2, 1/2, 2, 1000, 1/20⟩]) :=
  (environment_deterministic (fun x => x) (fun x => x)
    (mkEnv [⟨1, 2, 3/2, 1/2, 2, 1000, 1/20⟩]) (mkEnv [⟨1, 2, 3/2, 1/2, 2, 1000, 1/20⟩])
    [3, 0] rfl rfl).1

/-- C5: for a non-exhausted environment and an action in [0, 10], the
reward of `step` equals the spec's formula: the record's Sharpe ratio times
`log(profit_factor + 1e-6)`, minus a fixed penalty of 10 when the resulting
capital falls below 70% of the initial capital, plus a fixed bonus of 1
when the resulting capital exceeds the running maximum of the prior equity
history. -/
theorem step_reward_eq_spec (logQ sqrtQ : ℚ → ℚ) (e : BettingEnvironment) (a : Nat)
    (hidx : e.current_index < e.backtest_results.length) (ha : a ≤ 10) :
    (step logQ sqrtQ e a).2.2.1 = spec_reward logQ e a := by
  have hn : ¬ (e.backtest_results.length ≤ e.current_index) := by omega
  unfold step spec_reward
  rw [if_neg hn]
  dsimp only
  split_ifs <;> ring

theorem step_reward_eq_spec_witness :
    (step (fun x => x) (fun x => x) (mkEnv [⟨1, 2, 3/2, 1/2, 2, 1000, 1/20⟩]) 5).2.2.1
      = spec_reward (fun x => x) (mkEnv [⟨1, 2, 3/2, 1/2, 2, 1000, 1/20⟩]) 5 :=
  step_reward_eq_spec (fun x => x) (fun x => x)
    (mkEnv [⟨1, 2, 3/2, 1/2, 2, 1000, 1/20⟩]) 5 (by decide) (by decide)

/-- C10: stepping an exhausted environment (current index at or beyond the
record count) returns the all-zero 9-dimensional state, reward 0, done =
true and the empty info map, and leaves the environment — capital, equity
history, action history and index — unchanged. -/
theorem step_exhausted (logQ sqrtQ : ℚ → ℚ) (e : BettingEnvironment) (a : Nat)
    (h : e.backtest_results.length ≤ e.current_index) :
    step logQ sqrtQ e a = (e, List.replicate 9 0, 0, true, none) := by
  unfold step get_state
  rw [if_pos h, if_pos h]

theorem step_exhausted_witness :
    step (fun x => x) (fun x => x) (mkEnv []) 4
      = (mkEnv [], List.replicate 9 0, 0, true, none) :=
  step_exhausted (fun x => x) (fun x => x) (mkEnv []) 4 (by decide)

/-! ## Theorems on the temporal split -/

/-- C7: the temporal split cuts the ordered rows at index
`⌊n * (1 - test_size)⌋` with no shuffling: train and test are the prefix
and suffix at that index, their concatenation is the original row list (so
no row is lost or duplicated), and for 100 rows with `test_size = 0.2` the
train+validation part is exactly the first 80 rows and the test part
exactly the last 20. -/
theorem temporal_split {α β : Type} (X : List α) (y : List β) (test_size : ℚ) :
    create_train_test_split X y test_size
      = (X.take (⌊(X.length : ℚ) * (1 - test_size)⌋).toNat,
         X.drop (⌊(X.length : ℚ) * (1 - test_size)⌋).toNat,
         y.take (⌊(X.length : ℚ) * (1 - test_size)⌋).toNat,
         y.drop (⌊(X.length : ℚ) * (1 - test_size)⌋).toNat)
    ∧ (create_train_test_split X y test_size).1
        ++ (create_train_test_split X y test_size).2.1 = X
    ∧ (X.length = 100 → test_size = 1 / 5 →
        (create_train_test_split X y test_size).1 = X.take 80
        ∧ (create_train_test_split X y test_size).2.1 = X.drop 80
        ∧ (create_train_test_split X y test_size).1.length = 80
        ∧ (create_train_test_split X y test_size).2.1.length = 20) := by
  refine ⟨rfl, List.take_append_drop _ X, ?_⟩
  intro h100 hts
  have hidx : (⌊(X.length : ℚ) * (1 - test_size)⌋).toNat = 80 := by
    rw [h100, hts]
    norm_num
    decide
  refine ⟨?_, ?_, ?_, ?_⟩
  · show X.take (⌊(X.length : ℚ) * (1 - test_size)⌋).toNat = X.take 80
    rw [hidx]
  · show X.drop (⌊(X.length : ℚ) * (1 - test_size)⌋).toNat = X.drop 80
    rw [hidx]
  · show (X.take (⌊(X.length : ℚ) * (1 - test_size)⌋).toNat).length = 80
    rw [hidx, List.length_take, h100]
    omega
  · show (X.drop (⌊(X.length : ℚ) * (1 - test_size)⌋).toNat).length = 20
    rw [hidx, List.length_drop, h100]

theorem temporal_split_witness :
    ((List.range 100).length = 100 ∧ (1/5 : ℚ) = 1/5)
    ∧ (create_train_test_split (List.range 100) (List.range 100) (1/5)).1
        = (List.range 100).take 80 :=
  ⟨⟨List.length_range 100, rfl⟩,
    ((temporal_split (List.range 100) (List.range 100) (1/5)).2.2
      (List.length_range 100) rfl).1⟩

/-! ## Theorems on action selection -/

/-- A concrete `PolicyNetwork` with the constructor's layer widths for
`state_dim = 9`, `action_dim = 11` (weights immaterial here). -/
def net9 : PolicyNetwork :=
  { l1 := { in_features := 9, weight := [], bias := [] }
    l2 := { in_features := 256, weight := [], bias := [] }
    l3 := { in_features := 128, weight := [], bias := [] }
    l4 := { in_features := 64, weight := [], bias := [] } }

/-- C9 counterexample: with `training=True` and epsilon 1 (its starting
value), the exploration branch fires for every draw of `random.random()`
(always < 1), so `select_action` on a state of dimension 3 — against a
configured input dimension of 9 — returns a random action (here 5) instead
of failing with any error: the malformed state is never examined. -/
theorem select_action_counterexample :
    (([0, 0, 0] : List ℚ).length ≠ net9.l1.in_features)
    ∧ select_action 1 net9 (1/2) 5 true [0, 0, 0] = Except.ok 5 := by
  constructor
  · decide
  · unfold select_action
    rw [if_pos ⟨rfl, by norm_num⟩]

/-- C9 amended: a malformed state (length differing from the first layer's
configured input dimension) makes `select_action` fail fast with torch's
shape-mismatch error exactly when the policy estimator is consulted — that
is, when `training` is false or the exploration draw does not fire; it is
never silently coerced. When the exploration branch fires the state is not
examined and a random action is returned; likewise a `train_step` call with
fewer than `batch_size` stored transitions is a no-op and touches no state. -/
theorem select_action_amended {P T : Type} (epsilon : ℚ) (net : PolicyNetwork)
    (r : ℚ) (randAction : Nat) (training : Bool) (state : List ℚ)
    (hdim : state.length ≠ net.l1.in_features) :
    (¬ (training = true ∧ r < epsilon) →
        select_action epsilon net r randAction training state
          = Except.error ("mat1 and mat2 shapes cannot be multiplied"))
    ∧ (training = true ∧ r < epsilon →
        select_action epsilon net r randAction training state = Except.ok randAction)
    ∧ ∀ (cfg : AgentCfg) (upd : P → List T → P) (batch : List T) (s : AgentState P T),
        s.replay_buffer.length < cfg.batch_size → train_step cfg upd batch s = s := by
  refine ⟨?_, ?_, ?_⟩
  · intro hexp
    unfold select_action
    rw [if_neg hexp]
    unfold policyForward linearForward
    rw [if_neg hdim]
    rfl
  · intro hexp
    unfold select_action
    rw [if_pos hexp]
  · intro cfg upd batch s hb
    unfold train_step
    rw [if_pos hb]

theorem select_action_amended_witness :
    select_action 1 net9 (1/2) 5 false [0, 0, 0]
      = Except.error ("mat1 and mat2 shapes cannot be multiplied") :=
  (select_action_amended (P := Unit) (T := Unit) 1 net9 (1/2) 5 false [0, 0, 0]
    (by decide)).1 (by simp)

/-! ## Theorems on model comparison -/

theorem insertDesc_perm (x : String × ℚ) (l : List (String × ℚ)) :
    (insertDesc x l).Perm (x :: l) := by
  induction l with
  | nil => exact List.Perm.refl _
  | cons y ys ih =>
    unfold insertDesc
    split
    · exact List.Perm.refl _
    · exact (ih.cons y).trans (List.Perm.swap x y ys)

theorem insertDesc_sorted (x : String × ℚ) (l : List (String × ℚ))
    (h : l.Pairwise (fun a b => b.2 ≤ a.2)) :
    (insertDesc x l).Pairwise (fun a b => b.2 ≤ a.2) := by
  induction l with
  | nil => simp [insertDesc]
  | cons y ys ih =>
    rw [List.pairwise_cons] at h
    unfold insertDesc
    split
    · rename_i hlt
      refine List.pairwise_cons.mpr ⟨?_, List.pairwise_cons.mpr h⟩
      intro b hb
      rcases List.mem_cons.mp hb with hby | hbys
      · rw [hby]
        exact le_of_lt hlt
      · exact le_trans (h.1 b hbys) (le_of_lt hlt)
    · rename_i hge
      refine List.pairwise_cons.mpr ⟨?_, ih h.2⟩
      intro b hb
      rcases List.mem_cons.mp ((insertDesc_perm x ys).mem_iff.mp hb) with hbx | hbys
      · rw [hbx]
        exact not_lt.mp hge
      · exact h.1 b hbys

theorem foldl_insertDesc (l acc : List (String × ℚ))
    (h : acc.Pairwise (fun a b => b.2 ≤ a.2)) :
    (l.foldl (fun acc x => insertDesc x acc) acc).Pairwise (fun a b => b.2 ≤ a.2)
    ∧ (l.foldl (fun acc x => insertDesc x acc) acc).Perm (acc ++ l) := by
  induction l generalizing acc with
  | nil =>
    constructor
    · exact h
    · rw [List.append_nil]
      exact List.Perm.refl acc
  | cons x l ih =>
    obtain ⟨s1, p1⟩ := ih (insertDesc x acc) (insertDesc_sorted x acc h)
    refine ⟨s1, ?_⟩
    refine p1.trans ?_
    refine (List.Perm.append_right l (insertDesc_perm x acc)).trans ?_
    exact List.perm_middle.symm

theorem sorted_head_max (l : List (String × ℚ))
    (h : l.Pairwise (fun a b => b.2 ≤ a.2)) :
    ∀ q ∈ l, q.2 ≤ (l.headD ("", 0)).2 := by
  cases l with
  | nil =>
    intro q hq
    exact absurd hq (List.not_mem_nil q)
  | cons x xs =>
    intro q hq
    rw [List.pairwise_cons] at h
    rcases List.mem_cons.mp hq with h1 | h1
    · rw [h1]
      exact le_refl _
    · exact h.1 q h1

/-- C8: `compare_models` computes every model's composite score as exactly
0.30·Sharpe + 0.20·ROI + 0.20·profit factor + 0.15·(1 − Brier) +
0.15·win rate, returns the models as a permutation of those scored entries
ranked in descending score order, and the recommended (best) model is the
top-ranked entry, whose score is maximal. -/
theorem compare_models_spec (ms : List (String × ModelMetrics)) :
    (compare_models ms).composite_scores
      = ms.map (fun p => (p.1,
          30/100 * p.2.sharpe_ratio + 20/100 * p.2.roi + 20/100 * p.2.profit_factor
            + 15/100 * (1 - p.2.brier_score) + 15/100 * p.2.win_rate))
    ∧ (compare_models ms).rankings.Pairwise (fun a b => b.2 ≤ a.2)
    ∧ (compare_models ms).rankings.Perm (compare_models ms).composite_scores
    ∧ (compare_models ms).best_model = (compare_models ms).rankings.head?.map Prod.fst
    ∧ ∀ q ∈ (compare_models ms).rankings,
        q.2 ≤ ((compare_models ms).rankings.headD ("", 0)).2 := by
  have hfold := foldl_insertDesc (ms.map fun p => (p.1, composite_score p.2)) []
    List.Pairwise.nil
  have hsorted : (compare_models ms).rankings.Pairwise (fun a b => b.2 ≤ a.2) := hfold.1
  refine ⟨rfl, hsorted, ?_, rfl, sorted_head_max _ hsorted⟩
  have hperm := hfold.2
  rw [List.nil_append] at hperm
  exact hperm

theorem compare_models_spec_witness :
    (("rl_agent", (3/5 : ℚ)) ∈ (compare_models
        [("rl_agent", ⟨2, 0, 0, 1, 0⟩), ("ensemble", ⟨0, 0, 0, 1, 0⟩)]).rankings)
    ∧ (("rl_agent", (3/5 : ℚ)).2
        ≤ ((compare_models
            [("rl_agent", ⟨2, 0, 0, 1, 0⟩),
             ("ensemble", ⟨0, 0, 0, 1, 0⟩)]).rankings.headD ("", 0)).2) := by
  have hmem : ("rl_agent", (3/5 : ℚ)) ∈ (compare_models
      [("rl_agent", ⟨2, 0, 0, 1, 0⟩), ("ensemble", ⟨0, 0, 0, 1, 0⟩)]).rankings := by
    have hr : (compare_models
        [("rl_agent", ⟨2, 0, 0, 1, 0⟩), ("ensemble", ⟨0, 0, 0, 1, 0⟩)]).rankings
        = [("rl_agent", 3/5), ("ensemble", 0)] := by
      norm_num [compare_models, sortDesc, insertDesc, composite_score]
    rw [hr]
    simp
  exact ⟨hmem,
    (compare_models_spec
        [("rl_agent", ⟨2, 0, 0, 1, 0⟩), ("ensemble", ⟨0, 0, 0, 1, 0⟩)]).2.2.2.2
      ("rl_agent", (3/5 : ℚ)) hmem⟩

/-! ## Theorems on the training-job lifecycle -/

theorem train_all_models_error_registry {δ μ : Type} (registry : List μ)
    (data : Except String δ) (fitEval : δ → Except String TrainOutcome)
    (register : TrainOutcome → Except String μ) (e : String)
    (h : (train_all_models registry data fitEval register).1 = Except.error e) :
    train_all_models registry data fitEval register = (Except.error e, registry) := by
  unfold train_all_models at h ⊢
  cases data with
  | error e0 => simp_all
  | ok d =>
    cases hf : fitEval d with
    | error e0 => simp_all
    | ok out =>
      cases hr : register out with
      | error e0 => simp_all
      | ok m => simp_all

/-- C6: any exception at any step of a training job is caught at the job
boundary: the job record turns to status `failed` with the error message
and a failure timestamp, while metrics and model version stay unset and the
artifact registry is untouched (no partial model registered); in
particular, data filters matching zero records raise the `ValueError`
whose message says no backtest results were found, and the job run with
those filters ends `failed` with exactly that error. -/
theorem job_failure_boundary (mt : String) (t0 t1 t2 : Nat) :
    (∀ (δ μ : Type) (registry : List μ) (data : Except String δ)
        (fitEval : δ → Except String TrainOutcome)
        (register : TrainOutcome → Except String μ) (e : String),
        (train_all_models registry data fitEval register).1 = Except.error e →
        (run_training_job (initialJob mt t0) t1 t2 registry data fitEval register).1.status
            = "failed"
        ∧ (run_training_job (initialJob mt t0) t1 t2 registry data fitEval register).1.error
            = some e
        ∧ (run_training_job (initialJob mt t0) t1 t2 registry data fitEval
            register).1.failed_at = some t2
        ∧ (run_training_job (initialJob mt t0) t1 t2 registry data fitEval
            register).1.metrics = none
        ∧ (run_training_job (initialJob mt t0) t1 t2 registry data fitEval
            register).1.model_version = none
        ∧ (run_training_job (initialJob mt t0) t1 t2 registry data fitEval register).2
            = registry)
    ∧ (∀ (α : Type) (db : List α) (p : α → Bool), db.filter p = [] →
        load_training_data (load_backtest_results db p)
          = Except.error ("No backtest results found with given filters"))
    ∧ (∀ (α δ μ : Type) (db : List α) (p : α → Bool) (rest : List α → Except String δ)
        (registry : List μ) (fitEval : δ → Except String TrainOutcome)
        (register : TrainOutcome → Except String μ), db.filter p = [] →
        run_training_job (initialJob mt t0) t1 t2 registry
            ((load_training_data (load_backtest_results db p)).bind rest) fitEval register
          = ({ initialJob mt t0 with
                status := "failed"
                started_at := some t1
                error := some ("No backtest results found with given filters")
                failed_at := some t2 }, registry)) := by
  refine ⟨?_, ?_, ?_⟩
  · intro δ μ registry data fitEval register e h
    have hT := train_all_models_error_registry registry data fitEval register e h
    unfold run_training_job
    rw [hT]
    exact ⟨rfl, rfl, rfl, rfl, rfl, rfl⟩
  · intro α db p hp
    unfold load_backtest_results load_training_data
    rw [hp]
    rfl
  · intro α δ μ db p rest registry fitEval register hp
    have hd : (load_training_data (load_backtest_results db p)).bind rest
        = Except.error ("No backtest results found with given filters") := by
      unfold load_backtest_results load_training_data
      rw [hp]
      rfl
    rw [hd]
    rfl

theorem job_failure_boundary_witness :
    run_training_job (initialJob ("ensemble") 0) 1 2 ([] : List Nat)
        ((load_training_data (load_backtest_results ([] : List Nat) (fun _ => true))).bind
          (fun r => Except.ok r))
        (fun (_ : List Nat) => Except.ok ⟨[], [], 1, 1⟩) (fun _ => Except.ok 0)
      = ({ initialJob ("ensemble") 0 with
            status := "failed"
            started_at := some 1
            error := some ("No backtest results found with given filters")
            failed_at := some 2 }, ([] : List Nat)) :=
  (job_failure_boundary ("ensemble") 0 1 2).2.2 Nat (List Nat) Nat [] (fun _ => true)
    (fun r => Except.ok r) [] (fun (_ : List Nat) => Except.ok ⟨[], [], 1, 1⟩)
    (fun _ => Except.ok 0) rfl
